import Mathlib

/-!
Verification development for the CCWS Clockify migration and webhook service.

The Go sources are shallowly embedded:

* entity records keep only the fields the migration logic reads;
* Go maps become association lists with first-match lookup;
* the remote Clockify API (an external collaborator) becomes an explicit
  environment record whose fields give the outcome of each remote call;
* every mutating operation returns the result, the updated service state and
  the list of create-call effects it issued, so that claims about "no create
  call" or "at most one create call" are statements about the effect trace.
-/

set_option autoImplicit false

deriving instance DecidableEq for Except

namespace CCWS

/-- Client entity (models `Client`; only fields the migration reads). -/
structure Client where
  id : String
  name : String
  deriving Repr, DecidableEq

/-- Project entity (models `Project`; only fields the migration reads). -/
structure Project where
  id : String
  name : String
  clientID : String
  deriving Repr, DecidableEq

/-- Task entity (models `Task`; only fields the migration reads). -/
structure Task where
  id : String
  name : String
  projectID : String
  deriving Repr, DecidableEq

/-- Tag entity (models `Tag`). -/
structure Tag where
  id : String
  name : String
  deriving Repr, DecidableEq

/-- Time entry (models `TimeEntry`; interval and tag data folded into opaque
strings since the migration copies them verbatim). -/
structure TimeEntry where
  id : String
  description : String
  taskID : String
  projectID : String
  billable : Bool
  deriving Repr, DecidableEq

/-- Models `MigrationConfig`.  A Go `map[string]string` can be `nil`; that is
`none` here, while a present (possibly empty) map is `some` of an association
list. `batchSize` is a Go `int`, hence `Int`. -/
structure MigrationConfig where
  sourceWorkspaceName : String
  sourceProjectName : String
  targetWorkspaceName : String
  clientMapping : Option (List (String × String))
  defaultClientName : String
  dryRun : Bool
  batchSize : Int
  skipExisting : Bool
  createClients : Bool
  deriving Repr, DecidableEq

/-- Models `MigrationStats` (timestamps omitted: wall-clock time is outside
the embedding). -/
structure MigrationStats where
  timeEntriesProcessed : Nat
  timeEntriesCreated : Nat
  projectsCreated : Nat
  tasksCreated : Nat
  clientsCreated : Nat
  errors : List String
  deriving Repr, DecidableEq

/-- First-match lookup in an association list (Go map read). -/
def lookupA {α : Type} (l : List (String × α)) (k : String) : Option α :=
  match l with
  | [] => none
  | (k0, v0) :: rest => if k0 = k then some v0 else lookupA rest k

/-- Go map write `m[k] = v`: replace the binding if present, else append. -/
def insertA {α : Type} (l : List (String × α)) (k : String) (v : α) :
    List (String × α) :=
  match l with
  | [] => [(k, v)]
  | (k0, v0) :: rest =>
      if k0 = k then (k0, v) :: rest else (k0, v0) :: insertA rest k v

/-- Models the client-name determination inside `ParseTaskName`: start from
the default, use the mapping entry when the mapping map is non-nil and has the
key, and only when the mapping map is nil fall back to
`projectName + " Client"` when `CreateClients` is set. -/
def resolveClientName (cfg : MigrationConfig) (projectName : String) : String :=
  match cfg.clientMapping with
  | some mapping =>
      match lookupA mapping projectName with
      | some mapped => mapped
      | none => cfg.defaultClientName
  | none =>
      if cfg.createClients then projectName ++ " Client"
      else cfg.defaultClientName

/-- Models the match of the Go regular expression `(.+)/TASK(\d+)$` anchored
with a leading caret, as used by `ParseTaskName`.  The overall string must be
`p ++ "/TASK" ++ d` with `d` a nonempty run of ASCII digits reaching the end
of the string and `p` nonempty and free of newlines (Go `.` does not match a
newline).  Since an all-digit suffix cannot contain `/TASK`, that split is
unique, so it can be computed by stripping the maximal digit suffix.  Returns
(captured project part, captured digit run). -/
def parseTaskNameCore (s : String) : Option (String × String) :=
  let rev := s.data.reverse
  let digs := rev.takeWhile Char.isDigit
  let rest := rev.dropWhile Char.isDigit
  if digs.isEmpty then none
  else if rest.take 5 = ['K', 'S', 'A', 'T', '/'] then
    let pre := (rest.drop 5).reverse
    if pre.isEmpty then none
    else if pre.contains '\n' then none
    else some (String.mk pre, String.mk digs.reverse)
  else none

/-- The Unicode White_Space property, as tested by Go `unicode.IsSpace`. -/
def isSpaceRune (c : Char) : Bool :=
  (0x09 ≤ c.val && c.val ≤ 0x0D) || c.val = 0x20 || c.val = 0x85 ||
  c.val = 0xA0 || c.val = 0x1680 || (0x2000 ≤ c.val && c.val ≤ 0x200A) ||
  c.val = 0x2028 || c.val = 0x2029 || c.val = 0x202F || c.val = 0x205F ||
  c.val = 0x3000

/-- Models Go `strings.TrimSpace`: drop White_Space runes from both ends. -/
def trimSpace (s : String) : String :=
  String.mk (((s.data.dropWhile isSpaceRune).reverse.dropWhile isSpaceRune).reverse)

/-- Models `ProjectTaskMapping`. -/
structure ProjectTaskMapping where
  originalTaskName : String
  projectName : String
  taskNumber : String
  newTaskName : String
  clientName : String
  deriving Repr, DecidableEq

/-- Models `MigrationService.ParseTaskName`. -/
def ParseTaskName (cfg : MigrationConfig) (taskName : String) :
    Except String ProjectTaskMapping :=
  match parseTaskNameCore taskName with
  | none =>
      .error ("task name \x27" ++ taskName ++
        "\x27 does not match expected format \x27<project>/TASK<number>\x27")
  | some (rawProject, num) =>
      let projectName := trimSpace rawProject
      .ok
        { originalTaskName := taskName
          projectName := projectName
          taskNumber := num
          newTaskName := "TASK " ++ num
          clientName := resolveClientName cfg projectName }

/-- A remote create call issued by the migration (network write effects).
Read-only listing calls are not effects: the claims only constrain create
and delete traffic. -/
inductive Effect where
  | createClientCall (name : String)
  | createProjectCall (name : String)
  | createTaskCall (projectID : String) (name : String)
  | createTimeEntryCall (projectID : String) (taskID : String)
  deriving Repr, DecidableEq

/-- Outcome environment for the remote Clockify API (external collaborator).
Paginated iterators (`IterProjects`, `IterProjectTasks`) are the sequences of
yields they produce: each element is one page or the error that ended the
iteration.  Create endpoints map the request to the server outcome. -/
structure RemoteEnv where
  projectPages : List (Except String (List Project))
  taskPages : String → List (Except String (List Task))
  sourceTaskPages : List (Except String (List Task))
  createClient : String → Except String Client
  createProject : String → Except String Project
  createTask : String → String → Except String Task
  createTimeEntry : TimeEntry → String → String → Except String Unit

/-- In-run mutable state of `MigrationService`: the three caches and the
statistics record. -/
structure ServiceState where
  targetClients : List (String × Client)
  targetProjects : List (String × Project)
  targetTasks : List (String × Task)
  stats : MigrationStats
  deriving Repr, DecidableEq

/-- Scan pages as the Go `for ... range iter` loops do: stop with the first
matching element of a page, stop with an error page, report `none` when the
pages run out. -/
def findInPages {α : Type} (pages : List (Except String (List α)))
    (p : α → Bool) : Except String (Option α) :=
  match pages with
  | [] => .ok none
  | .error e :: _ => .error e
  | .ok xs :: rest =>
      match xs.find? p with
      | some x => .ok (some x)
      | none => findInPages rest p

/-- Models `getSourceTask`: reject an empty task ID before any remote call,
then scan the source project task pages for the ID. -/
def getSourceTask (env : RemoteEnv) (taskID : String) : Except String Task :=
  if taskID = "" then .error "empty task ID"
  else
    match findInPages env.sourceTaskPages (fun t => t.id = taskID) with
    | .error e => .error e
    | .ok (some t) => .ok t
    | .ok none => .error ("task with ID " ++ taskID ++ " not found")

/-- Models `getOrCreateClient`: cache, then create (only when `CreateClients`
and not dry run), then the dry-run dummy, else the disabled error.  The
dry-run dummy is returned without being cached and without touching stats. -/
def getOrCreateClient (cfg : MigrationConfig) (env : RemoteEnv)
    (st : ServiceState) (clientName : String) :
    Except String Client × ServiceState × List Effect :=
  match lookupA st.targetClients clientName with
  | some c => (.ok c, st, [])
  | none =>
      if cfg.createClients && !cfg.dryRun then
        match env.createClient clientName with
        | .error e => (.error e, st, [.createClientCall clientName])
        | .ok c =>
            (.ok c,
              { st with
                targetClients := insertA st.targetClients clientName c
                stats :=
                  { st.stats with clientsCreated := st.stats.clientsCreated + 1 } },
              [.createClientCall clientName])
      else if cfg.dryRun then
        (.ok { id := "dummy", name := clientName }, st, [])
      else
        (.error ("client \x27" ++ clientName ++
          "\x27 not found and auto-creation disabled"), st, [])

/-- Models `getOrCreateProject`: cache, remote listing, dry-run dummy (cached
under the project name, stats untouched), else remote create (cached,
`ProjectsCreated` incremented). -/
def getOrCreateProject (cfg : MigrationConfig) (env : RemoteEnv)
    (st : ServiceState) (projectName clientID : String) :
    Except String Project × ServiceState × List Effect :=
  match lookupA st.targetProjects projectName with
  | some p => (.ok p, st, [])
  | none =>
      match findInPages env.projectPages (fun p => p.name = projectName) with
      | .error e => (.error e, st, [])
      | .ok (some p) =>
          (.ok p, { st with targetProjects := insertA st.targetProjects projectName p }, [])
      | .ok none =>
          if cfg.dryRun then
            let dummy : Project :=
              { id := "dummy", name := projectName, clientID := clientID }
            (.ok dummy,
              { st with targetProjects := insertA st.targetProjects projectName dummy }, [])
          else
            match env.createProject projectName with
            | .error e => (.error e, st, [.createProjectCall projectName])
            | .ok p =>
                (.ok p,
                  { st with
                    targetProjects := insertA st.targetProjects projectName p
                    stats :=
                      { st.stats with projectsCreated := st.stats.projectsCreated + 1 } },
                  [.createProjectCall projectName])

/-- Models `getOrCreateTask`, cache key `projectID ++ "/" ++ taskName`. -/
def getOrCreateTask (cfg : MigrationConfig) (env : RemoteEnv)
    (st : ServiceState) (projectID taskName : String) :
    Except String Task × ServiceState × List Effect :=
  -- Go computes `cacheKey := fmt.Sprintf("%s/%s", projectID, taskName)` once;
  -- it is written out at each use here.
  match lookupA st.targetTasks (projectID ++ "/" ++ taskName) with
  | some t => (.ok t, st, [])
  | none =>
      match findInPages (env.taskPages projectID) (fun t => t.name = taskName) with
      | .error e => (.error e, st, [])
      | .ok (some t) =>
          (.ok t, { st with targetTasks := insertA st.targetTasks (projectID ++ "/" ++ taskName) t }, [])
      | .ok none =>
          if cfg.dryRun then
            let dummy : Task :=
              { id := "dummy", name := taskName, projectID := projectID }
            (.ok dummy,
              { st with targetTasks := insertA st.targetTasks (projectID ++ "/" ++ taskName) dummy }, [])
          else
            match env.createTask projectID taskName with
            | .error e => (.error e, st, [.createTaskCall projectID taskName])
            | .ok t =>
                (.ok t,
                  { st with
                    targetTasks := insertA st.targetTasks (projectID ++ "/" ++ taskName) t
                    stats := { st.stats with tasksCreated := st.stats.tasksCreated + 1 } },
                  [.createTaskCall projectID taskName])

/-- Models `createTargetTimeEntry`: dry run returns before the remote call;
otherwise one create call, incrementing `TimeEntriesCreated` on success. -/
def createTargetTimeEntry (cfg : MigrationConfig) (env : RemoteEnv)
    (st : ServiceState) (entry : TimeEntry) (targetProjectID targetTaskID : String) :
    Except String Unit × ServiceState × List Effect :=
  if cfg.dryRun then (.ok (), st, [])
  else
    match env.createTimeEntry entry targetProjectID targetTaskID with
    | .error e => (.error e, st, [.createTimeEntryCall targetProjectID targetTaskID])
    | .ok _ =>
        (.ok (),
          { st with
            stats :=
              { st.stats with timeEntriesCreated := st.stats.timeEntriesCreated + 1 } },
          [.createTimeEntryCall targetProjectID targetTaskID])

/-- Models `processTimeEntry`: source task lookup, parse, client → project →
task resolution, target entry creation, each error wrapped with its context
message. -/
def processTimeEntry (cfg : MigrationConfig) (env : RemoteEnv)
    (st : ServiceState) (entry : TimeEntry) :
    Except String Unit × ServiceState × List Effect :=
  match getSourceTask env entry.taskID with
  | .error e => (.error ("failed to get source task: " ++ e), st, [])
  | .ok task =>
      match ParseTaskName cfg task.name with
      | .error e =>
          (.error ("failed to parse task name \x27" ++ task.name ++ "\x27: " ++ e), st, [])
      | .ok mapping =>
          let rc := getOrCreateClient cfg env st mapping.clientName
          match rc.1 with
          | .error e =>
              (.error ("failed to get/create client \x27" ++ mapping.clientName ++
                "\x27: " ++ e), rc.2.1, rc.2.2)
          | .ok targetClient =>
              let rp := getOrCreateProject cfg env rc.2.1 mapping.projectName targetClient.id
              match rp.1 with
              | .error e =>
                  (.error ("failed to get/create project \x27" ++ mapping.projectName ++
                    "\x27: " ++ e), rp.2.1, rc.2.2 ++ rp.2.2)
              | .ok targetProject =>
                  let rt := getOrCreateTask cfg env rp.2.1 targetProject.id mapping.newTaskName
                  match rt.1 with
                  | .error e =>
                      (.error ("failed to get/create task \x27" ++ mapping.newTaskName ++
                        "\x27: " ++ e), rt.2.1, rc.2.2 ++ rp.2.2 ++ rt.2.2)
                  | .ok targetTask =>
                      let re := createTargetTimeEntry cfg env rt.2.1 entry targetProject.id
                        targetTask.id
                      match re.1 with
                      | .error e =>
                          (.error ("failed to create target time entry: " ++ e), re.2.1,
                            rc.2.2 ++ rp.2.2 ++ rt.2.2 ++ re.2.2)
                      | .ok _ =>
                          (.ok (), re.2.1, rc.2.2 ++ rp.2.2 ++ rt.2.2 ++ re.2.2)

/-- The loop-body bookkeeping of `processBatch`: an error is appended to
`stats.Errors` and the entry is skipped; a success bumps
`TimeEntriesProcessed`. -/
def recordOutcome (entry : TimeEntry) (r : Except String Unit)
    (st : ServiceState) : ServiceState :=
  match r with
  | .error e =>
      { st with
        stats :=
          { st.stats with
            errors := st.stats.errors ++
              ["Failed to process entry " ++ entry.id ++ ": " ++ e] } }
  | .ok _ =>
      { st with
        stats :=
          { st.stats with
            timeEntriesProcessed := st.stats.timeEntriesProcessed + 1 } }

/-- Models `processBatch`: per-entry errors are appended to `stats.Errors`
and the loop continues; successes bump `TimeEntriesProcessed`.  The Go
function returns an `error` but every path returns `nil`, mirrored by the
always-`ok` first component. -/
def processBatch (cfg : MigrationConfig) (env : RemoteEnv)
    (st : ServiceState) (timeEntries : List TimeEntry) :
    Except String Unit × ServiceState × List Effect :=
  match timeEntries with
  | [] => (.ok (), st, [])
  | entry :: rest =>
      let r := processTimeEntry cfg env st entry
      let rec2 := processBatch cfg env (recordOutcome entry r.1 r.2.1) rest
      (rec2.1, rec2.2.1, r.2.2 ++ rec2.2.2)

/-- Models `processTimeEntries`: the batching loop `for i := 0; i < len; i +=
batchSize`, slicing `timeEntries[i:min(i+bs, len)]` and aborting on a batch
error.  A non-positive Go batch size would loop forever; that is ruled out by
`NewMigrationService` and is represented by the `bs = 0` guard. -/
def processTimeEntries (cfg : MigrationConfig) (env : RemoteEnv) (bs : Nat)
    (st : ServiceState) (timeEntries : List TimeEntry) :
    Except String Unit × ServiceState × List Effect :=
  if h : bs = 0 ∨ timeEntries = [] then (.ok (), st, [])
  else
    match processBatch cfg env st (timeEntries.take bs) with
    | (.error e, st1, effs1) => (.error ("failed to process batch: " ++ e), st1, effs1)
    | (.ok _, st1, effs1) =>
        let r := processTimeEntries cfg env bs st1 (timeEntries.drop bs)
        (r.1, r.2.1, effs1 ++ r.2.2)
termination_by timeEntries.length
decreasing_by
  simp only [not_or] at h
  have hbs : 0 < bs := Nat.pos_of_ne_zero h.1
  have hne : timeEntries.length ≠ 0 := fun hl => h.2 (List.eq_nil_of_length_eq_zero hl)
  simpa [List.length_drop] using Nat.sub_lt (Nat.pos_of_ne_zero hne) hbs

/-- Models the config-defaulting prelude of `NewMigrationService`, which
writes through the caller-supplied `*MigrationConfig`: a non-positive
`BatchSize` becomes 50 and an empty `DefaultClientName` becomes
"Default Client". -/
def NewMigrationServiceConfig (config : MigrationConfig) : MigrationConfig :=
  let c1 := if config.batchSize ≤ 0 then { config with batchSize := 50 } else config
  if c1.defaultClientName = "" then { c1 with defaultClientName := "Default Client" }
  else c1

/-- Webhook entity (models `Webhook`; only fields the service reads). -/
structure Webhook where
  id : String
  name : String
  event : String
  deriving Repr, DecidableEq

/-- Remote outcomes for the webhook endpoints: `createWebhook` maps the event
type of the request to the server outcome, `deleteWebhook` maps a webhook ID
to `none` (success) or `some` error. -/
structure WebhookEnv where
  createWebhook : String → Except String Webhook
  deleteWebhook : String → Option String

/-- The payload shape registered for an event in `eventToObject`. -/
inductive PayloadShape where
  | timeEntryShape
  | clientShape
  | projectShape
  | tagShape
  deriving Repr, DecidableEq

/-- Models the `eventToObject` table: the five monitored event types and the
template type each decodes into. -/
def eventToObject : List (String × PayloadShape) :=
  [("NEW_TIMER_STARTED", .timeEntryShape),
   ("TIMER_STOPPED", .timeEntryShape),
   ("NEW_CLIENT", .clientShape),
   ("NEW_PROJECT", .projectShape),
   ("NEW_TAG", .tagShape)]

/-- The registration loop of `Create`, iterating the `eventToObject` keys in
the given order (Go map iteration order is unspecified; claims hold for every
order).  Returns the accumulated event → webhook map or the first creation
error, plus the list of events for which a create call was issued. -/
def webhookCreateGo (env : WebhookEnv) (order : List String) :
    Except String (List (String × Webhook)) × List String :=
  match order with
  | [] => (.ok [], [])
  | ev :: rest =>
      match env.createWebhook ev with
      | .error e => (.error ("failed to create webhook: " ++ e), [ev])
      | .ok w =>
          let r := webhookCreateGo env rest
          (match r.1 with
           | .error e => .error e
           | .ok m => .ok ((ev, w) :: m), ev :: r.2)

/-- Models `WorkspaceWebhookService.Create`: build a fresh local map; only on
full success is it assigned to `s.webhooks` — a failed `Create` leaves the
registry untouched. -/
def webhookCreate (env : WebhookEnv) (registry : List (String × Webhook))
    (order : List String) :
    Except String Unit × List (String × Webhook) × List String :=
  match webhookCreateGo env order with
  | (.error e, effs) => (.error e, registry, effs)
  | (.ok m, effs) => (.ok (), m, effs)

/-- The deletion loop of `Delete`: every registered webhook is attempted;
returns (deletion failure messages in order, attempted webhook IDs). -/
def webhookDeleteGo (env : WebhookEnv) :
    List (String × Webhook) → List String × List String
  | [] => ([], [])
  | kv :: rest =>
      let r := webhookDeleteGo env rest
      match env.deleteWebhook kv.2.id with
      | some e => (e :: r.1, kv.2.id :: r.2)
      | none => (r.1, kv.2.id :: r.2)

/-- Models `WorkspaceWebhookService.Delete`: attempt all deletions, join the
failures onto the base `ErrDeleteWebhook` error, succeed only if all
succeeded.  First component: `none` for success, `some` of the joined error
parts otherwise; second component: the webhook IDs whose deletion was
attempted. -/
def webhookDelete (env : WebhookEnv) (registry : List (String × Webhook)) :
    Option (List String) × List String :=
  let r := webhookDeleteGo env registry
  (if r.1.isEmpty then none else some ("failed to delete webhook" :: r.1), r.2)

/-- A decoded webhook payload: a fresh value of the template type. -/
inductive Payload where
  | timeEntryPayload (t : TimeEntry)
  | clientPayload (c : Client)
  | projectPayload (p : Project)
  | tagPayload (t : Tag)
  deriving Repr, DecidableEq

/-- The shape of a payload value. -/
def payloadShape : Payload → PayloadShape
  | .timeEntryPayload _ => .timeEntryShape
  | .clientPayload _ => .clientShape
  | .projectPayload _ => .projectShape
  | .tagPayload _ => .tagShape

/-- JSON decoding oracle (`encoding/json` is an external collaborator): for
each template type, whether a body decodes and to what value. -/
structure JsonOracle where
  decodeTimeEntry : String → Option TimeEntry
  decodeClient : String → Option Client
  decodeProject : String → Option Project
  decodeTag : String → Option Tag

/-- `cloneObject` followed by `json.Unmarshal`: decode the body into a fresh
instance of the template type for the shape. -/
def unmarshalAs (j : JsonOracle) (shape : PayloadShape) (body : String) :
    Option Payload :=
  match shape with
  | .timeEntryShape => (j.decodeTimeEntry body).map .timeEntryPayload
  | .clientShape => (j.decodeClient body).map .clientPayload
  | .projectShape => (j.decodeProject body).map .projectPayload
  | .tagShape => (j.decodeTag body).map .tagPayload

/-- An inbound webhook HTTP request.  Go `Header.Get` returns `""` for an
absent header, so an absent header and an explicitly empty one coincide. -/
structure InboundRequest where
  eventTypeHeader : String
  signatureHeader : String
  body : String
  deriving Repr, DecidableEq

/-- Models the stub `verifyClockifySignature`, which always accepts. -/
def verifyClockifySignature (_signature : String) (_r : InboundRequest) : Bool :=
  true

/-- Models `ProcessWebhook`.  Result mirrors the Go triple
`(WebhookEvent, any, error)`: event type, decoded payload, error message. -/
def ProcessWebhook (j : JsonOracle) (r : InboundRequest) :
    String × Option Payload × Option String :=
  if r.eventTypeHeader = "" then
    ("", none, some "missing Clockify-Webhook-Event-Type header")
  else
    match lookupA eventToObject r.eventTypeHeader with
    | none =>
        (r.eventTypeHeader, none,
          some ("unsupported event type: " ++ r.eventTypeHeader))
    | some shape =>
        if r.signatureHeader = "" then
          (r.eventTypeHeader, none, some "missing Clockify-Signature header")
        else if !verifyClockifySignature r.signatureHeader r then
          (r.eventTypeHeader, none, some "invalid signature")
        else
          match unmarshalAs j shape r.body with
          | none => (r.eventTypeHeader, none, some "failed to unmarshal body")
          | some obj => (r.eventTypeHeader, some obj, none)

/-- One UTF-8 decoding step à la Go range-over-string / `utf8.DecodeRune`:
a valid encoding yields its rune, anything invalid yields U+FFFD and advances
one byte.  Input and output are byte and rune values as `Nat`s. -/
def utf8DecodeGo (bytes : List Nat) : List Nat :=
  match bytes with
  | [] => []
  | b0 :: rest =>
      if b0 < 0x80 then b0 :: utf8DecodeGo rest
      else if 0xC2 ≤ b0 ∧ b0 ≤ 0xDF then
        match rest with
        | b1 :: rest2 =>
            if 0x80 ≤ b1 ∧ b1 ≤ 0xBF then
              ((b0 - 0xC0) * 64 + (b1 - 0x80)) :: utf8DecodeGo rest2
            else 0xFFFD :: utf8DecodeGo (b1 :: rest2)
        | [] => [0xFFFD]
      else if 0xE0 ≤ b0 ∧ b0 ≤ 0xEF then
        match rest with
        | b1 :: b2 :: rest3 =>
            if (if b0 = 0xE0 then 0xA0 ≤ b1 ∧ b1 ≤ 0xBF
                else if b0 = 0xED then 0x80 ≤ b1 ∧ b1 ≤ 0x9F
                else 0x80 ≤ b1 ∧ b1 ≤ 0xBF) ∧ (0x80 ≤ b2 ∧ b2 ≤ 0xBF) then
              ((b0 - 0xE0) * 4096 + (b1 - 0x80) * 64 + (b2 - 0x80)) :: utf8DecodeGo rest3
            else 0xFFFD :: utf8DecodeGo (b1 :: b2 :: rest3)
        | [b1] => 0xFFFD :: utf8DecodeGo [b1]
        | [] => [0xFFFD]
      else if 0xF0 ≤ b0 ∧ b0 ≤ 0xF4 then
        match rest with
        | b1 :: b2 :: b3 :: rest4 =>
            if (if b0 = 0xF0 then 0x90 ≤ b1 ∧ b1 ≤ 0xBF
                else if b0 = 0xF4 then 0x80 ≤ b1 ∧ b1 ≤ 0x8F
                else 0x80 ≤ b1 ∧ b1 ≤ 0xBF) ∧
               (0x80 ≤ b2 ∧ b2 ≤ 0xBF) ∧ (0x80 ≤ b3 ∧ b3 ≤ 0xBF) then
              ((b0 - 0xF0) * 0x40000 + (b1 - 0x80) * 4096 + (b2 - 0x80) * 64 +
                (b3 - 0x80)) :: utf8DecodeGo rest4
            else 0xFFFD :: utf8DecodeGo (b1 :: b2 :: b3 :: rest4)
        | [b1, b2] => 0xFFFD :: utf8DecodeGo [b1, b2]
        | [b1] => 0xFFFD :: utf8DecodeGo [b1]
        | [] => [0xFFFD]
      else 0xFFFD :: utf8DecodeGo rest
termination_by bytes.length
decreasing_by all_goals simp_arith [List.length]

/-- UTF-8 encoding of one rune value (Go `string(runes)` re-encoding). -/
def utf8EncodeRune (c : Nat) : List Nat :=
  if c < 0x80 then [c]
  else if c < 0x800 then [0xC0 + c / 64, 0x80 + c % 64]
  else if c < 0x10000 then
    [0xE0 + c / 4096, 0x80 + (c / 64) % 64, 0x80 + c % 64]
  else
    [0xF0 + c / 0x40000, 0x80 + (c / 4096) % 64, 0x80 + (c / 64) % 64, 0x80 + c % 64]

/-- The rune filter of `makeWebhookName` step 2: keep runes above 31 that are
not DEL, space, tab, newline or carriage return. -/
def keepRune (r : Nat) : Bool :=
  decide (r > 31) && decide (r ≠ 127) && decide (r ≠ 32) && decide (r ≠ 9) &&
    decide (r ≠ 10) && decide (r ≠ 13)

/-- Models `kebabify` on byte strings: `strings.ReplaceAll(s, " ", "-")`
(byte 0x20 to byte 0x2D), then `strings.ToLower`.  Unicode lowercasing is an
external stdlib collaborator, passed in as `lower`. -/
def kebabifyBytes (lower : List Nat → List Nat) (s : List Nat) : List Nat :=
  lower (s.map fun b => if b = 32 then 45 else b)

/-- Steps 1–5 of `makeWebhookName` before the final length cap: byte-truncate
the workspace name to 20, strip runes (Go ranges over the string, decoding
UTF-8 with U+FFFD replacement), re-encode, kebabify, then append a hyphen,
the 6 random symbols and the "-wh" suffix.  `lower` and `randomPart` stand
for the external lowercasing and randomness collaborators. -/
def webhookRawName (lower : List Nat → List Nat) (randomPart : List Nat)
    (workspaceName : List Nat) : List Nat :=
  let ws := if workspaceName.length > 20 then workspaceName.take 20 else workspaceName
  let stripped := (utf8DecodeGo ws).filter keepRune
  let strippedBytes := (stripped.map utf8EncodeRune).flatten
  let kebabified := kebabifyBytes lower strippedBytes
  kebabified ++ [45] ++ randomPart ++ [45, 119, 104]

/-- Models `makeWebhookName` step 6: cap the byte length at 30. -/
def makeWebhookName (lower : List Nat → List Nat) (randomPart : List Nat)
    (workspaceName : List Nat) : List Nat :=
  let name := webhookRawName lower randomPart workspaceName
  if name.length > 30 then name.take 30 else name

/-! ### Association list lemmas -/

theorem lookupA_insertA {α : Type} (l : List (String × α)) (k : String) (v : α) :
    lookupA (insertA l k v) k = some v := by
  induction l with
  | nil => simp [insertA, lookupA]
  | cons kv rest ih =>
      by_cases h : kv.1 = k
      · simp [insertA, lookupA, h]
      · simp [insertA, lookupA, h, ih]

/-! ### Frame and preservation lemmas for the resolver operations -/

@[simp] theorem getOrCreateClient_errors (cfg : MigrationConfig) (env : RemoteEnv)
    (st : ServiceState) (n : String) :
    (getOrCreateClient cfg env st n).2.1.stats.errors = st.stats.errors := by
  unfold getOrCreateClient
  (repeat' split) <;> rfl

@[simp] theorem getOrCreateClient_processed (cfg : MigrationConfig) (env : RemoteEnv)
    (st : ServiceState) (n : String) :
    (getOrCreateClient cfg env st n).2.1.stats.timeEntriesProcessed =
      st.stats.timeEntriesProcessed := by
  unfold getOrCreateClient
  (repeat' split) <;> rfl

@[simp] theorem getOrCreateProject_errors (cfg : MigrationConfig) (env : RemoteEnv)
    (st : ServiceState) (n c : String) :
    (getOrCreateProject cfg env st n c).2.1.stats.errors = st.stats.errors := by
  unfold getOrCreateProject
  (repeat' split) <;> rfl

@[simp] theorem getOrCreateProject_processed (cfg : MigrationConfig) (env : RemoteEnv)
    (st : ServiceState) (n c : String) :
    (getOrCreateProject cfg env st n c).2.1.stats.timeEntriesProcessed =
      st.stats.timeEntriesProcessed := by
  unfold getOrCreateProject
  (repeat' split) <;> rfl

@[simp] theorem getOrCreateProject_clients (cfg : MigrationConfig) (env : RemoteEnv)
    (st : ServiceState) (n c : String) :
    (getOrCreateProject cfg env st n c).2.1.targetClients = st.targetClients := by
  unfold getOrCreateProject
  (repeat' split) <;> rfl

@[simp] theorem getOrCreateTask_errors (cfg : MigrationConfig) (env : RemoteEnv)
    (st : ServiceState) (p n : String) :
    (getOrCreateTask cfg env st p n).2.1.stats.errors = st.stats.errors := by
  unfold getOrCreateTask
  (repeat' split) <;> rfl

@[simp] theorem getOrCreateTask_processed (cfg : MigrationConfig) (env : RemoteEnv)
    (st : ServiceState) (p n : String) :
    (getOrCreateTask cfg env st p n).2.1.stats.timeEntriesProcessed =
      st.stats.timeEntriesProcessed := by
  unfold getOrCreateTask
  (repeat' split) <;> rfl

@[simp] theorem getOrCreateTask_clients (cfg : MigrationConfig) (env : RemoteEnv)
    (st : ServiceState) (p n : String) :
    (getOrCreateTask cfg env st p n).2.1.targetClients = st.targetClients := by
  unfold getOrCreateTask
  (repeat' split) <;> rfl

@[simp] theorem createTargetTimeEntry_errors (cfg : MigrationConfig) (env : RemoteEnv)
    (st : ServiceState) (e : TimeEntry) (p t : String) :
    (createTargetTimeEntry cfg env st e p t).2.1.stats.errors = st.stats.errors := by
  unfold createTargetTimeEntry
  (repeat' split) <;> rfl

@[simp] theorem createTargetTimeEntry_processed (cfg : MigrationConfig) (env : RemoteEnv)
    (st : ServiceState) (e : TimeEntry) (p t : String) :
    (createTargetTimeEntry cfg env st e p t).2.1.stats.timeEntriesProcessed =
      st.stats.timeEntriesProcessed := by
  unfold createTargetTimeEntry
  (repeat' split) <;> rfl

@[simp] theorem createTargetTimeEntry_clients (cfg : MigrationConfig) (env : RemoteEnv)
    (st : ServiceState) (e : TimeEntry) (p t : String) :
    (createTargetTimeEntry cfg env st e p t).2.1.targetClients = st.targetClients := by
  unfold createTargetTimeEntry
  (repeat' split) <;> rfl

theorem processTimeEntry_errors (cfg : MigrationConfig) (env : RemoteEnv)
    (st : ServiceState) (e : TimeEntry) :
    (processTimeEntry cfg env st e).2.1.stats.errors = st.stats.errors := by
  unfold processTimeEntry
  dsimp only
  (repeat' split) <;> simp

theorem processTimeEntry_processed (cfg : MigrationConfig) (env : RemoteEnv)
    (st : ServiceState) (e : TimeEntry) :
    (processTimeEntry cfg env st e).2.1.stats.timeEntriesProcessed =
      st.stats.timeEntriesProcessed := by
  unfold processTimeEntry
  dsimp only
  (repeat' split) <;> simp

/-! ### Success-path lemmas -/

/-- An environment in which every remote create endpoint succeeds and every
listed page is delivered without error. -/
def envAllCreatesSucceed (env : RemoteEnv) : Prop :=
  (∀ n, ∃ c, env.createClient n = .ok c) ∧
  (∀ n, ∃ p, env.createProject n = .ok p) ∧
  (∀ pid n, ∃ t, env.createTask pid n = .ok t) ∧
  (∀ e pid tid, env.createTimeEntry e pid tid = .ok ()) ∧
  (∀ pg ∈ env.projectPages, ∃ l, pg = .ok l) ∧
  (∀ pid, ∀ pg ∈ env.taskPages pid, ∃ l, pg = .ok l)

/-- An entry whose source task resolves and whose task name parses: such an
entry can fail only on a remote create. -/
def goodEntry (cfg : MigrationConfig) (env : RemoteEnv) (e : TimeEntry) : Bool :=
  match getSourceTask env e.taskID with
  | .error _ => false
  | .ok t =>
      match ParseTaskName cfg t.name with
      | .error _ => false
      | .ok _ => true

/-- An entry whose source task resolves but whose task name does not parse. -/
def unparsableEntry (cfg : MigrationConfig) (env : RemoteEnv) (e : TimeEntry) : Bool :=
  match getSourceTask env e.taskID with
  | .error _ => false
  | .ok t =>
      match ParseTaskName cfg t.name with
      | .error _ => true
      | .ok _ => false

theorem findInPages_ok {α : Type} (pages : List (Except String (List α)))
    (p : α → Bool) (h : ∀ pg ∈ pages, ∃ l, pg = .ok l) :
    ∃ o, findInPages pages p = .ok o := by
  induction pages with
  | nil => exact ⟨none, rfl⟩
  | cons pg rest ih =>
      obtain ⟨l, hl⟩ := h pg (List.mem_cons_self pg rest)
      subst hl
      cases hf : l.find? p with
      | none =>
          obtain ⟨o, ho⟩ := ih (fun q hq => h q (List.mem_cons_of_mem _ hq))
          exact ⟨o, by simp [findInPages, hf, ho]⟩
      | some x => exact ⟨some x, by simp [findInPages, hf]⟩

theorem getOrCreateClient_ok (cfg : MigrationConfig) (env : RemoteEnv)
    (st : ServiceState) (n : String)
    (hcc : cfg.createClients = true)
    (henv : ∀ m, ∃ c, env.createClient m = .ok c) :
    ∃ c, (getOrCreateClient cfg env st n).1 = .ok c := by
  unfold getOrCreateClient
  cases hl : lookupA st.targetClients n with
  | some c => exact ⟨c, rfl⟩
  | none =>
      cases hdry : cfg.dryRun with
      | true => simp [hcc, hdry]
      | false =>
          obtain ⟨c, hc⟩ := henv n
          exact ⟨c, by simp [hcc, hdry, hc]⟩

theorem getOrCreateProject_ok (cfg : MigrationConfig) (env : RemoteEnv)
    (st : ServiceState) (n cid : String)
    (hpages : ∀ pg ∈ env.projectPages, ∃ l, pg = .ok l)
    (hcreate : ∀ m, ∃ p, env.createProject m = .ok p) :
    ∃ p, (getOrCreateProject cfg env st n cid).1 = .ok p := by
  unfold getOrCreateProject
  cases hl : lookupA st.targetProjects n with
  | some p => exact ⟨p, rfl⟩
  | none =>
      obtain ⟨o, ho⟩ := findInPages_ok env.projectPages (fun p => p.name = n) hpages
      rw [ho]
      cases o with
      | some p => exact ⟨p, rfl⟩
      | none =>
          cases hdry : cfg.dryRun with
          | true => simp
          | false =>
              obtain ⟨p, hp⟩ := hcreate n
              exact ⟨p, by simp [hp]⟩

theorem getOrCreateTask_ok (cfg : MigrationConfig) (env : RemoteEnv)
    (st : ServiceState) (pid n : String)
    (hpages : ∀ pg ∈ env.taskPages pid, ∃ l, pg = .ok l)
    (hcreate : ∀ q m, ∃ t, env.createTask q m = .ok t) :
    ∃ t, (getOrCreateTask cfg env st pid n).1 = .ok t := by
  unfold getOrCreateTask
  cases hl : lookupA st.targetTasks (pid ++ "/" ++ n) with
  | some t => exact ⟨t, rfl⟩
  | none =>
      obtain ⟨o, ho⟩ := findInPages_ok (env.taskPages pid) (fun t => t.name = n) hpages
      rw [ho]
      cases o with
      | some t => exact ⟨t, rfl⟩
      | none =>
          cases hdry : cfg.dryRun with
          | true => simp
          | false =>
              obtain ⟨t, ht⟩ := hcreate pid n
              exact ⟨t, by simp [ht]⟩

theorem createTargetTimeEntry_ok (cfg : MigrationConfig) (env : RemoteEnv)
    (st : ServiceState) (e : TimeEntry) (p t : String)
    (hok : ∀ e2 pid tid, env.createTimeEntry e2 pid tid = .ok ()) :
    (createTargetTimeEntry cfg env st e p t).1 = .ok () := by
  unfold createTargetTimeEntry
  cases hdry : cfg.dryRun with
  | true => simp
  | false => simp [hok]

/-- Under an all-successes environment with client auto-creation on, a good
entry is processed successfully from every service state. -/
theorem processTimeEntry_ok (cfg : MigrationConfig) (env : RemoteEnv)
    (st : ServiceState) (e : TimeEntry)
    (hcc : cfg.createClients = true)
    (henv : envAllCreatesSucceed env)
    (hgood : goodEntry cfg env e = true) :
    (processTimeEntry cfg env st e).1 = .ok () := by
  obtain ⟨hc, hp, ht, hte, hpp, htp⟩ := henv
  unfold goodEntry at hgood
  unfold processTimeEntry
  cases hst : getSourceTask env e.taskID with
  | error err => rw [hst] at hgood; simp at hgood
  | ok task =>
      rw [hst] at hgood
      dsimp only at hgood ⊢
      cases hpt : ParseTaskName cfg task.name with
      | error err => rw [hpt] at hgood; simp at hgood
      | ok mapping =>
          dsimp only
          obtain ⟨c, hcres⟩ := getOrCreateClient_ok cfg env st mapping.clientName hcc hc
          rw [hcres]
          dsimp only
          obtain ⟨p, hpres⟩ := getOrCreateProject_ok cfg env
            (getOrCreateClient cfg env st mapping.clientName).2.1 mapping.projectName c.id
            hpp hp
          rw [hpres]
          dsimp only
          obtain ⟨t, htres⟩ := getOrCreateTask_ok cfg env
            (getOrCreateProject cfg env (getOrCreateClient cfg env st mapping.clientName).2.1
              mapping.projectName c.id).2.1 p.id mapping.newTaskName (htp p.id) ht
          rw [htres]
          dsimp only
          rw [createTargetTimeEntry_ok _ _ _ _ _ _ hte]

/-- An entry whose task name does not parse fails with the parse error and
leaves the state untouched, issuing no remote call. -/
theorem processTimeEntry_unparsable (cfg : MigrationConfig) (env : RemoteEnv)
    (st : ServiceState) (e : TimeEntry)
    (hbad : unparsableEntry cfg env e = true) :
    ∃ msg, processTimeEntry cfg env st e = (.error msg, st, []) := by
  unfold unparsableEntry at hbad
  unfold processTimeEntry
  cases hst : getSourceTask env e.taskID with
  | error err => rw [hst] at hbad; simp at hbad
  | ok task =>
      rw [hst] at hbad
      dsimp only at hbad ⊢
      cases hpt : ParseTaskName cfg task.name with
      | error err =>
          exact ⟨"failed to parse task name \x27" ++ task.name ++ "\x27: " ++ err, rfl⟩
      | ok mapping => rw [hpt] at hbad; simp at hbad

/-! ### Batch processing lemmas -/

/-- The Go `processBatch` returns `nil` on every path. -/
theorem processBatch_ok (cfg : MigrationConfig) (env : RemoteEnv)
    (st : ServiceState) (l : List TimeEntry) :
    (processBatch cfg env st l).1 = .ok () := by
  induction l generalizing st with
  | nil => rfl
  | cons e rest ih => simp only [processBatch]; exact ih _

/-- Batches compose: processing a concatenation is processing the pieces in
sequence, with the effect traces concatenated. -/
theorem processBatch_append (cfg : MigrationConfig) (env : RemoteEnv)
    (st : ServiceState) (l1 l2 : List TimeEntry) :
    processBatch cfg env st (l1 ++ l2) =
      ((processBatch cfg env (processBatch cfg env st l1).2.1 l2).1,
       (processBatch cfg env (processBatch cfg env st l1).2.1 l2).2.1,
       (processBatch cfg env st l1).2.2 ++
         (processBatch cfg env (processBatch cfg env st l1).2.1 l2).2.2) := by
  induction l1 generalizing st with
  | nil => simp [processBatch]
  | cons e rest ih =>
      simp only [List.cons_append, processBatch, List.append_eq]
      rw [ih]
      simp [List.append_assoc]

/-- The batching loop of `processTimeEntries` is semantically sequential
processing of the whole list: it never aborts and produces the same state and
effect trace as one pass, for any positive batch size. -/
theorem processTimeEntries_eq_processBatch (cfg : MigrationConfig) (env : RemoteEnv)
    (bs : Nat) (hbs : bs ≠ 0) :
    ∀ (n : Nat) (l : List TimeEntry) (st : ServiceState), l.length ≤ n →
      processTimeEntries cfg env bs st l =
        (.ok (), (processBatch cfg env st l).2.1, (processBatch cfg env st l).2.2) := by
  intro n
  induction n with
  | zero =>
      intro l st hl
      have : l = [] := List.eq_nil_of_length_eq_zero (Nat.le_zero.mp hl)
      subst this
      rw [processTimeEntries]
      simp [processBatch]
  | succ n ih =>
      intro l st hl
      rw [processTimeEntries]
      by_cases hnil : l = []
      · subst hnil; simp [processBatch]
      · rw [dif_neg (by simp [hbs, hnil])]
        have hb1 : (processBatch cfg env st (l.take bs)).1 = .ok () :=
          processBatch_ok cfg env st (l.take bs)
        rcases hpb : processBatch cfg env st (l.take bs) with ⟨r1, st1, effs1⟩
        rw [hpb] at hb1
        simp only at hb1
        subst hb1
        dsimp only
        have hdrop : (l.drop bs).length ≤ n := by
          have hlen : l.length ≠ 0 := fun h0 => hnil (List.eq_nil_of_length_eq_zero h0)
          have : l.length - bs ≤ n := by omega
          simpa [List.length_drop] using this
        rw [ih (l.drop bs) st1 hdrop]
        have hsplit : l.take bs ++ l.drop bs = l := List.take_append_drop bs l
        conv_rhs => rw [← hsplit]
        rw [processBatch_append]
        simp [hpb]

/-- Over a list of good entries, every entry is processed: the processed
counter advances by the list length and the error list is untouched. -/
theorem processBatch_all_good (cfg : MigrationConfig) (env : RemoteEnv)
    (l : List TimeEntry)
    (hcc : cfg.createClients = true)
    (henv : envAllCreatesSucceed env)
    (hgood : ∀ e ∈ l, goodEntry cfg env e = true) :
    ∀ st : ServiceState,
      (processBatch cfg env st l).2.1.stats.timeEntriesProcessed =
        st.stats.timeEntriesProcessed + l.length ∧
      (processBatch cfg env st l).2.1.stats.errors = st.stats.errors := by
  induction l with
  | nil => intro st; simp [processBatch]
  | cons e rest ih =>
      intro st
      have hok : (processTimeEntry cfg env st e).1 = .ok () :=
        processTimeEntry_ok cfg env st e hcc henv (hgood e (List.mem_cons_self e rest))
      have hrec := ih (fun x hx => hgood x (List.mem_cons_of_mem _ hx))
        (recordOutcome e (processTimeEntry cfg env st e).1 (processTimeEntry cfg env st e).2.1)
      simp only [processBatch]
      rw [hrec.1, hrec.2]
      rw [hok]
      unfold recordOutcome
      simp [processTimeEntry_errors, processTimeEntry_processed, Nat.add_assoc,
        Nat.add_comm 1 rest.length]

/-! ### Dry-run lemmas -/

theorem getOrCreateClient_dry (cfg : MigrationConfig) (env : RemoteEnv)
    (hdry : cfg.dryRun = true) (st : ServiceState) (n : String) :
    (getOrCreateClient cfg env st n).2.1 = st ∧
    (getOrCreateClient cfg env st n).2.2 = [] := by
  unfold getOrCreateClient
  cases hl : lookupA st.targetClients n with
  | some c => exact ⟨rfl, rfl⟩
  | none => simp [hdry]

theorem getOrCreateProject_dry (cfg : MigrationConfig) (env : RemoteEnv)
    (hdry : cfg.dryRun = true) (st : ServiceState) (n cid : String) :
    (getOrCreateProject cfg env st n cid).2.1.stats = st.stats ∧
    (getOrCreateProject cfg env st n cid).2.2 = [] := by
  unfold getOrCreateProject
  (repeat' split) <;> simp_all [hdry]

theorem getOrCreateTask_dry (cfg : MigrationConfig) (env : RemoteEnv)
    (hdry : cfg.dryRun = true) (st : ServiceState) (pid n : String) :
    (getOrCreateTask cfg env st pid n).2.1.stats = st.stats ∧
    (getOrCreateTask cfg env st pid n).2.2 = [] := by
  unfold getOrCreateTask
  (repeat' split) <;> simp_all [hdry]

theorem createTargetTimeEntry_dry (cfg : MigrationConfig) (env : RemoteEnv)
    (hdry : cfg.dryRun = true) (st : ServiceState) (e : TimeEntry) (p t : String) :
    createTargetTimeEntry cfg env st e p t = (.ok (), st, []) := by
  unfold createTargetTimeEntry
  simp [hdry]

/-- In a dry run a single entry makes no create call, leaves all statistics
untouched and leaves the client cache untouched. -/
theorem processTimeEntry_dry (cfg : MigrationConfig) (env : RemoteEnv)
    (hdry : cfg.dryRun = true) (st : ServiceState) (e : TimeEntry) :
    (processTimeEntry cfg env st e).2.1.stats = st.stats ∧
    (processTimeEntry cfg env st e).2.1.targetClients = st.targetClients ∧
    (processTimeEntry cfg env st e).2.2 = [] := by
  unfold processTimeEntry
  dsimp only
  (repeat' split) <;>
    simp_all [getOrCreateClient_dry cfg env hdry, getOrCreateProject_dry cfg env hdry,
      getOrCreateTask_dry cfg env hdry, createTargetTimeEntry_dry cfg env hdry]

/-- In a dry run, a whole batch makes no create call, leaves the four created
counters untouched and leaves the client cache untouched (only
`TimeEntriesProcessed` and `Errors` move). -/
theorem processBatch_dry (cfg : MigrationConfig) (env : RemoteEnv)
    (hdry : cfg.dryRun = true) (l : List TimeEntry) :
    ∀ st : ServiceState,
      (processBatch cfg env st l).2.1.stats.clientsCreated = st.stats.clientsCreated ∧
      (processBatch cfg env st l).2.1.stats.projectsCreated = st.stats.projectsCreated ∧
      (processBatch cfg env st l).2.1.stats.tasksCreated = st.stats.tasksCreated ∧
      (processBatch cfg env st l).2.1.stats.timeEntriesCreated = st.stats.timeEntriesCreated ∧
      (processBatch cfg env st l).2.1.targetClients = st.targetClients ∧
      (processBatch cfg env st l).2.2 = [] := by
  induction l with
  | nil => intro st; simp [processBatch]
  | cons e rest ih =>
      intro st
      have hd := processTimeEntry_dry cfg env hdry st e
      have hrec := ih
        (recordOutcome e (processTimeEntry cfg env st e).1 (processTimeEntry cfg env st e).2.1)
      simp only [processBatch]
      refine ⟨?_, ?_, ?_, ?_, ?_, ?_⟩ <;>
        simp_all [recordOutcome] <;>
        cases (processTimeEntry cfg env st e).1 <;>
        simp_all

/-! ### Cache-hit lemmas for resolution idempotence -/

/-- A successful project resolution leaves the project cached under its
name. -/
theorem getOrCreateProject_caches (cfg : MigrationConfig) (env : RemoteEnv)
    (st : ServiceState) (n cid : String) (p : Project)
    (h : (getOrCreateProject cfg env st n cid).1 = .ok p) :
    lookupA (getOrCreateProject cfg env st n cid).2.1.targetProjects n = some p := by
  unfold getOrCreateProject at h ⊢
  (repeat' split) <;>
    simp_all [lookupA_insertA]

/-- A cached project resolves purely: same entity, unchanged state, no
effect. -/
theorem getOrCreateProject_cache_hit (cfg : MigrationConfig) (env : RemoteEnv)
    (st : ServiceState) (n cid : String) (p : Project)
    (h : lookupA st.targetProjects n = some p) :
    getOrCreateProject cfg env st n cid = (.ok p, st, []) := by
  unfold getOrCreateProject
  rw [h]

theorem getOrCreateTask_caches (cfg : MigrationConfig) (env : RemoteEnv)
    (st : ServiceState) (pid n : String) (t : Task)
    (h : (getOrCreateTask cfg env st pid n).1 = .ok t) :
    lookupA (getOrCreateTask cfg env st pid n).2.1.targetTasks (pid ++ "/" ++ n) =
      some t := by
  unfold getOrCreateTask at h ⊢
  (repeat' split) <;>
    simp_all [lookupA_insertA]

theorem getOrCreateTask_cache_hit (cfg : MigrationConfig) (env : RemoteEnv)
    (st : ServiceState) (pid n : String) (t : Task)
    (h : lookupA st.targetTasks (pid ++ "/" ++ n) = some t) :
    getOrCreateTask cfg env st pid n = (.ok t, st, []) := by
  unfold getOrCreateTask
  rw [h]

/-- A successful live-mode client resolution leaves the client cached (in dry
run the dummy client is deliberately not cached by the code). -/
theorem getOrCreateClient_caches (cfg : MigrationConfig) (env : RemoteEnv)
    (st : ServiceState) (n : String) (c : Client)
    (hdry : cfg.dryRun = false)
    (h : (getOrCreateClient cfg env st n).1 = .ok c) :
    lookupA (getOrCreateClient cfg env st n).2.1.targetClients n = some c := by
  unfold getOrCreateClient at h ⊢
  (repeat' split) <;>
    simp_all [lookupA_insertA]

theorem getOrCreateClient_cache_hit (cfg : MigrationConfig) (env : RemoteEnv)
    (st : ServiceState) (n : String) (c : Client)
    (h : lookupA st.targetClients n = some c) :
    getOrCreateClient cfg env st n = (.ok c, st, []) := by
  unfold getOrCreateClient
  rw [h]

/-! ### Webhook lifecycle lemmas -/

/-- A fully successful registration loop yields one webhook per event, in
order. -/
theorem webhookCreateGo_ok_keys (env : WebhookEnv) :
    ∀ (order : List String) (m : List (String × Webhook)),
      (webhookCreateGo env order).1 = .ok m → m.map Prod.fst = order := by
  intro order
  induction order with
  | nil => intro m h; simp [webhookCreateGo] at h; simp [← h]
  | cons ev rest ih =>
      intro m h
      unfold webhookCreateGo at h
      cases hc : env.createWebhook ev with
      | error e => rw [hc] at h; simp at h
      | ok w =>
          rw [hc] at h
          dsimp only at h
          cases hr : (webhookCreateGo env rest).1 with
          | error e => rw [hr] at h; simp at h
          | ok m2 =>
              rw [hr] at h
              simp only [Except.ok.injEq] at h
              subst h
              simp [ih m2 hr]

/-- `Delete` attempts the deletion of every webhook in the registry,
regardless of failures. -/
theorem webhookDeleteGo_attempts (env : WebhookEnv) :
    ∀ registry : List (String × Webhook),
      (webhookDeleteGo env registry).2 = registry.map (fun kv => kv.2.id) := by
  intro registry
  induction registry with
  | nil => rfl
  | cons kv rest ih =>
      unfold webhookDeleteGo
      cases env.deleteWebhook kv.2.id <;> simp [ih]

/-- Every failure in the joined `Delete` error comes from a deletion attempt
on a registered webhook — the creation error never appears. -/
theorem webhookDeleteGo_failures (env : WebhookEnv) :
    ∀ registry : List (String × Webhook),
      ∀ e ∈ (webhookDeleteGo env registry).1,
        ∃ kv, kv ∈ registry ∧ env.deleteWebhook kv.2.id = some e := by
  intro registry
  induction registry with
  | nil => intro e h; simp [webhookDeleteGo] at h
  | cons kv rest ih =>
      intro e h
      unfold webhookDeleteGo at h
      cases hd : env.deleteWebhook kv.2.id with
      | none =>
          rw [hd] at h
          obtain ⟨kv2, hm, hv⟩ := ih e h
          exact ⟨kv2, List.mem_cons_of_mem _ hm, hv⟩
      | some msg =>
          rw [hd] at h
          rcases List.mem_cons.mp h with h1 | h2
          · exact ⟨kv, List.mem_cons_self kv rest, by rw [hd, h1]⟩
          · obtain ⟨kv2, hm, hv⟩ := ih e h2
            exact ⟨kv2, List.mem_cons_of_mem _ hm, hv⟩

/-! ### String lemmas for the parser -/

theorem string_data_append (a b : String) : (a ++ b).data = a.data ++ b.data := rfl

theorem string_mk_data (s : String) : String.mk s.data = s := rfl

theorem string_data_eq_nil {s : String} (h : s.data = []) : s = "" := by
  cases s with
  | mk l => cases h; rfl

theorem takeWhile_append_of_all {α : Type} {q : α → Bool} (l1 l2 : List α)
    (h : ∀ c ∈ l1, q c = true) :
    (l1 ++ l2).takeWhile q = l1 ++ l2.takeWhile q := by
  induction l1 with
  | nil => simp
  | cons a as ih =>
      have ha : q a = true := h a (List.mem_cons_self a as)
      simp [List.takeWhile_cons, ha, ih (fun c hc => h c (List.mem_cons_of_mem _ hc))]

theorem dropWhile_append_of_all {α : Type} {q : α → Bool} (l1 l2 : List α)
    (h : ∀ c ∈ l1, q c = true) :
    (l1 ++ l2).dropWhile q = l2.dropWhile q := by
  induction l1 with
  | nil => simp
  | cons a as ih =>
      have ha : q a = true := h a (List.mem_cons_self a as)
      simp [List.dropWhile_cons, ha, ih (fun c hc => h c (List.mem_cons_of_mem _ hc))]

/-- The regular-expression split computed by `parseTaskNameCore` on a
well-formed legacy name `p ++ "/TASK" ++ d`. -/
theorem parseTaskNameCore_split (p d : String)
    (hp : p ≠ "") (hnl : p.data.contains '\n' = false)
    (hd : d ≠ "") (hdig : ∀ c ∈ d.data, c.isDigit = true) :
    parseTaskNameCore (p ++ "/TASK" ++ d) = some (p, d) := by
  have hpd : p.data ≠ [] := fun h => hp (string_data_eq_nil h)
  have hdd : d.data ≠ [] := fun h => hd (string_data_eq_nil h)
  have hdata : (p ++ "/TASK" ++ d).data =
      p.data ++ ['/', 'T', 'A', 'S', 'K'] ++ d.data := by
    rw [string_data_append, string_data_append]
  have hdigrev : ∀ c ∈ d.data.reverse, Char.isDigit c = true := by
    intro c hc; exact hdig c (List.mem_reverse.mp hc)
  unfold parseTaskNameCore
  rw [hdata]
  have hrev : (p.data ++ ['/', 'T', 'A', 'S', 'K'] ++ d.data).reverse =
      d.data.reverse ++ (['K', 'S', 'A', 'T', '/'] ++ p.data.reverse) := by
    simp [List.reverse_append]
  rw [hrev]
  dsimp only
  rw [takeWhile_append_of_all _ _ hdigrev, dropWhile_append_of_all _ _ hdigrev]
  have htw : (['K', 'S', 'A', 'T', '/'] ++ p.data.reverse).takeWhile Char.isDigit
      = [] := by
    simp [List.takeWhile_cons]
  have hdw : (['K', 'S', 'A', 'T', '/'] ++ p.data.reverse).dropWhile Char.isDigit
      = 'K' :: 'S' :: 'A' :: 'T' :: '/' :: p.data.reverse := by
    simp [List.dropWhile_cons]
  rw [htw, hdw]
  have hne : (d.data.reverse ++ []).isEmpty = false := by
    simp [List.isEmpty_iff]
    exact fun h => hdd (by simpa using congrArg List.reverse h)
  rw [hne]
  simp only [Bool.false_eq_true, if_false]
  have htake : ('K' :: 'S' :: 'A' :: 'T' :: '/' :: p.data.reverse).take 5 =
      ['K', 'S', 'A', 'T', '/'] := rfl
  have hdrop : ('K' :: 'S' :: 'A' :: 'T' :: '/' :: p.data.reverse).drop 5 =
      p.data.reverse := rfl
  rw [htake, hdrop]
  simp only [if_true]
  have hprev : p.data.reverse.reverse = p.data := List.reverse_reverse _
  rw [hprev]
  have hempty : p.data.isEmpty = false := by
    simp [List.isEmpty_iff, hpd]
  rw [hempty]
  simp only [Bool.false_eq_true, if_false]
  rw [hnl]
  simp only [Bool.false_eq_true, if_false]
  rw [List.append_nil, List.reverse_reverse]

/-! ### Concrete fixtures for witnesses and counterexamples -/

/-- A live-mode configuration with auto-client-creation and a nil mapping. -/
def cfgLive : MigrationConfig :=
  { sourceWorkspaceName := "SRC", sourceProjectName := "Legacy",
    targetWorkspaceName := "TGT", clientMapping := none,
    defaultClientName := "Default Client", dryRun := false, batchSize := 50,
    skipExisting := false, createClients := true }

/-- The same configuration in dry-run mode. -/
def cfgDry : MigrationConfig := { cfgLive with dryRun := true }

/-- A configuration whose client mapping is configured but has no entry for
the project name "Acme". -/
def cfgMappedOther : MigrationConfig :=
  { cfgLive with clientMapping := some [("Other", "Globex")] }

/-- A configuration with the Go zero value for the batch size. -/
def cfgZeroBatch : MigrationConfig := { cfgLive with batchSize := 0 }

/-- Fresh service state at the beginning of a run. -/
def st0 : ServiceState :=
  { targetClients := [], targetProjects := [], targetTasks := [],
    stats := { timeEntriesProcessed := 0, timeEntriesCreated := 0,
               projectsCreated := 0, tasksCreated := 0, clientsCreated := 0,
               errors := [] } }

/-- A remote environment in which every call succeeds; the source project
holds three tasks, one of which has an unparsable name. -/
def envGood : RemoteEnv :=
  { projectPages := [], taskPages := fun _ => [],
    sourceTaskPages :=
      [.ok [{ id := "t1", name := "Acme/TASK1", projectID := "sp" },
            { id := "tbad", name := "nonsense", projectID := "sp" },
            { id := "t2", name := "Beta/TASK2", projectID := "sp" }]],
    createClient := fun n => .ok { id := "c1", name := n },
    createProject := fun n => .ok { id := "p1", name := n, clientID := "" },
    createTask := fun pid n => .ok { id := "k1", name := n, projectID := pid },
    createTimeEntry := fun _ _ _ => .ok () }

/-- The all-successes environment with a project-create endpoint that always
fails. -/
def envCreateFails : RemoteEnv :=
  { envGood with createProject := fun _ => .error "boom" }

/-- Concrete fetched entries: `entry1`/`entry2` reference parsable tasks,
`entryBad` references the unparsable one, `entryNoTask` has an empty task
ID. -/
def entry1 : TimeEntry :=
  { id := "e1", description := "w1", taskID := "t1", projectID := "sp", billable := true }

def entry2 : TimeEntry :=
  { id := "e2", description := "w2", taskID := "t2", projectID := "sp", billable := true }

def entryBad : TimeEntry :=
  { id := "eb", description := "wb", taskID := "tbad", projectID := "sp", billable := true }

def entryNoTask : TimeEntry :=
  { id := "en", description := "wn", taskID := "", projectID := "sp", billable := false }

/-! ### Claim C4 -/

/-- C4: for every legacy task name of the form `<project>/TASK<digits>` (the
regular expression requires the project part nonempty and newline-free),
`ParseTaskName` returns the trimmed project part, the trailing digit run, and
the reformatted name `"TASK {number}"`; `"Acme/TASK42"` parses to project
`"Acme"`, number `"42"`, new name `"TASK 42"`, while `"Acme/TASK"` and
`"AcmeTASK42"` fail with a format-mismatch error and no partial result. -/
theorem claim_c4_parser_contract (cfg : MigrationConfig) (p d : String)
    (hp : p ≠ "") (hnl : p.data.contains '\n' = false)
    (hd : d ≠ "") (hdig : ∀ c ∈ d.data, c.isDigit = true) :
    ParseTaskName cfg (p ++ "/TASK" ++ d) =
      .ok { originalTaskName := p ++ "/TASK" ++ d
            projectName := trimSpace p
            taskNumber := d
            newTaskName := "TASK " ++ d
            clientName := resolveClientName cfg (trimSpace p) } ∧
    (ParseTaskName cfg "Acme/TASK42").toOption.map
        (fun m => (m.projectName, m.taskNumber, m.newTaskName)) =
      some ("Acme", "42", "TASK 42") ∧
    (ParseTaskName cfg "Acme/TASK").toOption = none ∧
    (ParseTaskName cfg "AcmeTASK42").toOption = none := by
  refine ⟨?_, ?_, ?_, ?_⟩
  · unfold ParseTaskName
    rw [parseTaskNameCore_split p d hp hnl hd hdig]
  · unfold ParseTaskName
    rw [show parseTaskNameCore "Acme/TASK42" = some ("Acme", "42") from by decide]
    rfl
  · unfold ParseTaskName
    rw [show parseTaskNameCore "Acme/TASK" = none from by decide]
    rfl
  · unfold ParseTaskName
    rw [show parseTaskNameCore "AcmeTASK42" = none from by decide]
    rfl

/-- Witness for C4 at `p = "Acme"`, `d = "42"`. -/
theorem claim_c4_witness :
    (ParseTaskName cfgLive ("Acme" ++ "/TASK" ++ "42")).toOption.map
        (fun m => (m.projectName, m.taskNumber, m.newTaskName, m.clientName)) =
      some ("Acme", "42", "TASK 42", "Acme Client") := by
  have h := (claim_c4_parser_contract cfgLive "Acme" "42" (by decide) (by decide)
    (by decide) (by decide)).1
  rw [h]
  decide

/-! ### Claim C5 -/

/-- C5 counterexample: with a configured mapping that has no entry for
"Acme" and auto-client-creation enabled, the claim predicts client name
"Acme Client" but the code yields the default client name, because the
auto-derived name is only used when the mapping map is nil. -/
theorem claim_c5_counterexample :
    cfgMappedOther.createClients = true ∧
    lookupA [("Other", "Globex")] "Acme" = none ∧
    (ParseTaskName cfgMappedOther "Acme/TASK7").toOption.map
        (fun m => m.clientName) = some "Default Client" ∧
    ("Default Client" : String) ≠ "Acme" ++ " Client" := by decide

/-- C5 (amended): an explicit mapping entry wins whenever the mapping map is
configured and has the key; when the mapping map is configured but lacks the
key, the default client name is used even if auto-creation is enabled; the
auto-derived `"{project} Client"` name is used only when no mapping map is
configured at all and auto-creation is enabled; otherwise the default client
name is used.  `ParseTaskName` resolves the client name of its output by this
rule applied to the extracted project name. -/
theorem claim_c5_amended (cfg : MigrationConfig) (projectName : String) :
    (∀ mapping mapped, cfg.clientMapping = some mapping →
        lookupA mapping projectName = some mapped →
        resolveClientName cfg projectName = mapped) ∧
    (∀ mapping, cfg.clientMapping = some mapping →
        lookupA mapping projectName = none →
        resolveClientName cfg projectName = cfg.defaultClientName) ∧
    (cfg.clientMapping = none → cfg.createClients = true →
        resolveClientName cfg projectName = projectName ++ " Client") ∧
    (cfg.clientMapping = none → cfg.createClients = false →
        resolveClientName cfg projectName = cfg.defaultClientName) ∧
    (∀ t m, ParseTaskName cfg t = .ok m →
        m.clientName = resolveClientName cfg m.projectName) := by
  refine ⟨?_, ?_, ?_, ?_, ?_⟩
  · intro mapping mapped h1 h2; simp [resolveClientName, h1, h2]
  · intro mapping h1 h2; simp [resolveClientName, h1, h2]
  · intro h1 h2; simp [resolveClientName, h1, h2]
  · intro h1 h2; simp [resolveClientName, h1, h2]
  · intro t m h
    unfold ParseTaskName at h
    cases hc : parseTaskNameCore t with
    | none => rw [hc] at h; simp at h
    | some v =>
        rw [hc] at h
        cases v with
        | mk rawProject num =>
            simp only [Except.ok.injEq] at h
            subst h
            rfl

/-- Witness for C5: each precedence branch at a concrete input. -/
theorem claim_c5_witness :
    resolveClientName cfgMappedOther "Other" = "Globex" ∧
    resolveClientName cfgMappedOther "Acme" = cfgMappedOther.defaultClientName ∧
    resolveClientName cfgLive "Acme" = "Acme" ++ " Client" := by
  refine ⟨?_, ?_, ?_⟩
  · exact (claim_c5_amended cfgMappedOther "Other").1 [("Other", "Globex")] "Globex"
      rfl (by decide)
  · exact (claim_c5_amended cfgMappedOther "Acme").2.1 [("Other", "Globex")]
      rfl (by decide)
  · exact (claim_c5_amended cfgLive "Acme").2.2.1 rfl rfl

/-! ### Claim C8 -/

/-- C8: for every workspace name (any byte string, including empty strings,
control characters and multibyte sequences), every lowercasing collaborator
and every random part, `makeWebhookName` returns at most 30 bytes, namely the
30-byte cap of the raw name built from the sanitized prefix, the random part
and the "-wh" marker. -/
theorem claim_c8_webhook_name_bound (lower : List Nat → List Nat)
    (randomPart workspaceName : List Nat) :
    (makeWebhookName lower randomPart workspaceName).length ≤ 30 ∧
    makeWebhookName lower randomPart workspaceName =
      (webhookRawName lower randomPart workspaceName).take 30 := by
  unfold makeWebhookName
  by_cases h : (webhookRawName lower randomPart workspaceName).length > 30
  · simp [h]
  · have hle : (webhookRawName lower randomPart workspaceName).length ≤ 30 :=
      Nat.le_of_not_lt h
    simp [h, List.take_of_length_le hle, hle]

/-! ### Claim C9 -/

/-- C9 counterexample: `NewMigrationService` writes defaults through the
caller's config pointer — with the Go zero value `BatchSize = 0` the config
is mutated to `BatchSize = 50`, so the config is not identical before and
after construction. -/
theorem claim_c9_counterexample :
    NewMigrationServiceConfig cfgZeroBatch ≠ cfgZeroBatch ∧
    (NewMigrationServiceConfig cfgZeroBatch).batchSize = 50 ∧
    cfgZeroBatch.batchSize = 0 := by decide

/-- C9 (amended): construction mutates the caller's config only to default
invalid fields — `BatchSize` becomes 50 when non-positive and
`DefaultClientName` becomes "Default Client" when empty; every other field is
preserved, and a config with a positive batch size and nonempty default
client name is left completely unchanged.  (The processing functions of the
embedding take the config as a read-only value, so no later step mutates
it.) -/
theorem claim_c9_amended (config : MigrationConfig) :
    (NewMigrationServiceConfig config).sourceWorkspaceName =
      config.sourceWorkspaceName ∧
    (NewMigrationServiceConfig config).sourceProjectName =
      config.sourceProjectName ∧
    (NewMigrationServiceConfig config).targetWorkspaceName =
      config.targetWorkspaceName ∧
    (NewMigrationServiceConfig config).clientMapping = config.clientMapping ∧
    (NewMigrationServiceConfig config).dryRun = config.dryRun ∧
    (NewMigrationServiceConfig config).skipExisting = config.skipExisting ∧
    (NewMigrationServiceConfig config).createClients = config.createClients ∧
    (NewMigrationServiceConfig config).batchSize =
      (if config.batchSize ≤ 0 then 50 else config.batchSize) ∧
    (NewMigrationServiceConfig config).defaultClientName =
      (if config.defaultClientName = "" then "Default Client"
       else config.defaultClientName) ∧
    (0 < config.batchSize → config.defaultClientName ≠ "" →
      NewMigrationServiceConfig config = config) := by
  unfold NewMigrationServiceConfig
  by_cases h1 : config.batchSize ≤ 0 <;> by_cases h2 : config.defaultClientName = "" <;>
    simp [h1, h2] <;> omega

/-- Witness for C9 (amended) at a fully valid config. -/
theorem claim_c9_witness :
    NewMigrationServiceConfig cfgLive = cfgLive :=
  (claim_c9_amended cfgLive).2.2.2.2.2.2.2.2.2 (by decide) (by decide)

/-! ### Claim C7 -/

/-- C7: the dispatcher ladder — missing event-type header (absent = empty
for Go `Header.Get`) gives the missing-event-type error; an unrecognized
event type gives the unsupported-event error; a missing signature header
gives the missing-signature error; a body the JSON collaborator rejects
gives the decode error; otherwise the event type is returned with a decoded
payload of exactly the shape registered for that event in the
event-to-shape table.  The branches are exhaustive and mutually exclusive,
so each failure occurs exactly under its stated condition. -/
theorem claim_c7_dispatcher (j : JsonOracle) (r : InboundRequest) :
    (r.eventTypeHeader = "" →
      ProcessWebhook j r =
        ("", none, some "missing Clockify-Webhook-Event-Type header")) ∧
    (r.eventTypeHeader ≠ "" → lookupA eventToObject r.eventTypeHeader = none →
      ProcessWebhook j r =
        (r.eventTypeHeader, none,
          some ("unsupported event type: " ++ r.eventTypeHeader))) ∧
    (∀ shape, r.eventTypeHeader ≠ "" →
      lookupA eventToObject r.eventTypeHeader = some shape →
      r.signatureHeader = "" →
      ProcessWebhook j r =
        (r.eventTypeHeader, none, some "missing Clockify-Signature header")) ∧
    (∀ shape, r.eventTypeHeader ≠ "" →
      lookupA eventToObject r.eventTypeHeader = some shape →
      r.signatureHeader ≠ "" → unmarshalAs j shape r.body = none →
      ProcessWebhook j r =
        (r.eventTypeHeader, none, some "failed to unmarshal body")) ∧
    (∀ shape obj, r.eventTypeHeader ≠ "" →
      lookupA eventToObject r.eventTypeHeader = some shape →
      r.signatureHeader ≠ "" → unmarshalAs j shape r.body = some obj →
      ProcessWebhook j r = (r.eventTypeHeader, some obj, none) ∧
        payloadShape obj = shape) := by
  refine ⟨?_, ?_, ?_, ?_, ?_⟩
  · intro h; simp [ProcessWebhook, h]
  · intro h1 h2; simp [ProcessWebhook, h1, h2]
  · intro shape h1 h2 h3; simp [ProcessWebhook, h1, h2, h3]
  · intro shape h1 h2 h3 h4
    simp [ProcessWebhook, h1, h2, h3, h4, verifyClockifySignature]
  · intro shape obj h1 h2 h3 h4
    refine ⟨by simp [ProcessWebhook, h1, h2, h3, h4, verifyClockifySignature], ?_⟩
    cases shape <;>
      simp only [unmarshalAs, Option.map_eq_some'] at h4 <;>
      obtain ⟨x, hx, hobj⟩ := h4 <;> subst hobj <;> rfl

/-- A JSON oracle for the C7 witness: every body decodes to a fixed value of
the requested type. -/
def jsonAlways : JsonOracle :=
  { decodeTimeEntry := fun _ => some entry1,
    decodeClient := fun _ => some { id := "c1", name := "N" },
    decodeProject := fun _ => some { id := "p1", name := "P", clientID := "c1" },
    decodeTag := fun _ => some { id := "g1", name := "G" } }

/-- Witness for C7: a well-formed NEW_CLIENT delivery decodes to a client
payload. -/
theorem claim_c7_witness :
    ProcessWebhook jsonAlways
        { eventTypeHeader := "NEW_CLIENT", signatureHeader := "sig", body := "{}" } =
      ("NEW_CLIENT", some (.clientPayload { id := "c1", name := "N" }), none) ∧
    payloadShape (.clientPayload { id := "c1", name := "N" }) = .clientShape :=
  (claim_c7_dispatcher jsonAlways
      { eventTypeHeader := "NEW_CLIENT", signatureHeader := "sig", body := "{}" }).2.2.2.2
    .clientShape (.clientPayload { id := "c1", name := "N" })
    (by decide) (by decide) (by decide) (by decide)

/-! ### Claim C6 -/

/-- A webhook environment where only the NEW_TIMER_STARTED registration
succeeds. -/
def envWebhookPartial : WebhookEnv :=
  { createWebhook := fun ev =>
      if ev = "NEW_TIMER_STARTED" then
        .ok { id := "w1", name := "whname", event := ev }
      else .error "boom",
    deleteWebhook := fun _ => none }

/-- The `eventToObject` keys in declaration order. -/
def eventOrder : List String := eventToObject.map Prod.fst

/-- C6 counterexample: `Create` fails on the second event after the first
webhook was successfully created, the registry stays empty, and the
subsequent `Delete` attempts no deletion at all (and even reports success) —
the successfully created webhook from the failed `Create` is never deleted,
contrary to the claim. -/
theorem claim_c6_counterexample :
    (webhookCreate envWebhookPartial [] eventOrder).1 =
      .error "failed to create webhook: boom" ∧
    envWebhookPartial.createWebhook "NEW_TIMER_STARTED" =
      .ok { id := "w1", name := "whname", event := "NEW_TIMER_STARTED" } ∧
    (webhookCreate envWebhookPartial [] eventOrder).2.1 = [] ∧
    (webhookDelete envWebhookPartial
      (webhookCreate envWebhookPartial [] eventOrder).2.1).2 = [] ∧
    (webhookDelete envWebhookPartial
      (webhookCreate envWebhookPartial [] eventOrder).2.1).1 = none := by decide

/-- C6 (amended): a failed `Create` leaves the registry unchanged (either all
registrations succeed and the registry holds one webhook per event, or the
registry is exactly what it was before), so a subsequent `Delete` attempts
deletion only of the webhooks in the registry — none from the failed
`Create`; `Delete` attempts every registered webhook regardless of failures,
succeeds iff every deletion succeeded, and its joined error reflects only
deletion failures. -/
theorem claim_c6_amended (env : WebhookEnv) (registry : List (String × Webhook))
    (order : List String) :
    (∀ e, (webhookCreate env registry order).1 = .error e →
      (webhookCreate env registry order).2.1 = registry) ∧
    ((webhookCreate env registry order).1 = .ok () →
      ((webhookCreate env registry order).2.1).map Prod.fst = order) ∧
    (webhookDelete env registry).2 = registry.map (fun kv => kv.2.id) ∧
    ((webhookDeleteGo env registry).1 = [] ↔ (webhookDelete env registry).1 = none) ∧
    (∀ e ∈ (webhookDeleteGo env registry).1,
      ∃ kv, kv ∈ registry ∧ env.deleteWebhook kv.2.id = some e) := by
  refine ⟨?_, ?_, ?_, ?_, ?_⟩
  · intro e h
    unfold webhookCreate at h ⊢
    rcases hc : webhookCreateGo env order with ⟨r, effs⟩
    rw [hc] at h
    cases r with
    | error e2 => rfl
    | ok m => exact absurd h (by simp)
  · intro h
    unfold webhookCreate at h ⊢
    rcases hc : webhookCreateGo env order with ⟨r, effs⟩
    rw [hc] at h
    cases r with
    | error e2 => exact absurd h (by simp)
    | ok m =>
        dsimp only
        exact webhookCreateGo_ok_keys env order m (by rw [hc])
  · exact webhookDeleteGo_attempts env registry
  · unfold webhookDelete
    dsimp only
    cases hf : (webhookDeleteGo env registry).1 with
    | nil => simp
    | cons a rest => simp
  · exact webhookDeleteGo_failures env registry

/-- Witness for C6 (amended): the failed partial `Create` of the
counterexample environment leaves the empty registry empty. -/
theorem claim_c6_witness :
    (webhookCreate envWebhookPartial [] eventOrder).2.1 = [] :=
  (claim_c6_amended envWebhookPartial [] eventOrder).1
    "failed to create webhook: boom" (by decide)

/-! ### Claim C3 -/

/-- C3 counterexample: when the remote project-create endpoint fails, the
result is not cached, so resolving the same project name twice issues two
create calls for that name — refuting the unconditional at-most-one-create
claim. -/
theorem claim_c3_counterexample :
    (getOrCreateProject cfgLive envCreateFails st0 "Acme" "c1").2.2 ++
      (getOrCreateProject cfgLive envCreateFails
        (getOrCreateProject cfgLive envCreateFails st0 "Acme" "c1").2.1
        "Acme" "c1").2.2 =
      [.createProjectCall "Acme", .createProjectCall "Acme"] := by decide

/-- C3 (amended): provided the first resolution returns successfully, the
entity is cached under its name, and the second resolution of the same name
in the run is a pure cache hit — no network call, no effect, the same
entity — so at most one create call is issued for that name; the same holds
for task resolution (keyed by project ID and name) and, outside dry-run
mode, for client resolution.  A failed resolution caches nothing and a later
attempt may issue another create call. -/
theorem claim_c3_amended (cfg : MigrationConfig) (env : RemoteEnv) :
    (∀ st n cid p, (getOrCreateProject cfg env st n cid).1 = .ok p →
      getOrCreateProject cfg env (getOrCreateProject cfg env st n cid).2.1 n cid =
        (.ok p, (getOrCreateProject cfg env st n cid).2.1, [])) ∧
    (∀ st pid n t, (getOrCreateTask cfg env st pid n).1 = .ok t →
      getOrCreateTask cfg env (getOrCreateTask cfg env st pid n).2.1 pid n =
        (.ok t, (getOrCreateTask cfg env st pid n).2.1, [])) ∧
    (∀ st n c, cfg.dryRun = false → (getOrCreateClient cfg env st n).1 = .ok c →
      getOrCreateClient cfg env (getOrCreateClient cfg env st n).2.1 n =
        (.ok c, (getOrCreateClient cfg env st n).2.1, [])) := by
  refine ⟨?_, ?_, ?_⟩
  · intro st n cid p h
    exact getOrCreateProject_cache_hit cfg env _ n cid p
      (getOrCreateProject_caches cfg env st n cid p h)
  · intro st pid n t h
    exact getOrCreateTask_cache_hit cfg env _ pid n t
      (getOrCreateTask_caches cfg env st pid n t h)
  · intro st n c hdry h
    exact getOrCreateClient_cache_hit cfg env _ n c
      (getOrCreateClient_caches cfg env st n c hdry h)

/-- Witness for C3 (amended): a concrete first creation followed by a pure
cache hit. -/
theorem claim_c3_witness :
    getOrCreateProject cfgLive envGood
        (getOrCreateProject cfgLive envGood st0 "Acme" "c1").2.1 "Acme" "c1" =
      (.ok { id := "p1", name := "Acme", clientID := "" },
       (getOrCreateProject cfgLive envGood st0 "Acme" "c1").2.1, []) :=
  (claim_c3_amended cfgLive envGood).1 st0 "Acme" "c1"
    { id := "p1", name := "Acme", clientID := "" } (by decide)

/-! ### Claim C2 -/

/-- C2 counterexample: on the same single-entry input, a dry run leaves all
four created counters at zero and the client cache empty, while the live run
counts one client/project/task/time-entry creation and caches the client —
so the dry-run counters and client cache do not populate as in a live run
(the dry-run sentinel client is returned without being cached). -/
theorem claim_c2_counterexample :
    (processBatch cfgDry envGood st0 [entry1]).2.1.stats.clientsCreated = 0 ∧
    (processBatch cfgLive envGood st0 [entry1]).2.1.stats.clientsCreated = 1 ∧
    (processBatch cfgDry envGood st0 [entry1]).2.1.stats.projectsCreated = 0 ∧
    (processBatch cfgLive envGood st0 [entry1]).2.1.stats.projectsCreated = 1 ∧
    (processBatch cfgDry envGood st0 [entry1]).2.1.stats.tasksCreated = 0 ∧
    (processBatch cfgLive envGood st0 [entry1]).2.1.stats.tasksCreated = 1 ∧
    (processBatch cfgDry envGood st0 [entry1]).2.1.stats.timeEntriesCreated = 0 ∧
    (processBatch cfgLive envGood st0 [entry1]).2.1.stats.timeEntriesCreated = 1 ∧
    lookupA (processBatch cfgDry envGood st0 [entry1]).2.1.targetClients
      "Acme Client" = none ∧
    lookupA (processBatch cfgLive envGood st0 [entry1]).2.1.targetClients
      "Acme Client" = some { id := "c1", name := "Acme Client" } ∧
    (processBatch cfgDry envGood st0 [entry1]).2.1.stats.timeEntriesProcessed = 1 := by
  decide

/-- C2 (amended): with dry-run enabled, a whole run issues no create (or
delete) remote call, leaves the four created counters and the entire client
cache unchanged, while sentinel projects and tasks are written to the same
caches under the same keys a real entity would use (project name, and
`projectID ++ "/" ++ taskName`); the dry-run sentinel client is returned
without touching the state at all. -/
theorem claim_c2_amended (cfg : MigrationConfig) (env : RemoteEnv) (bs : Nat)
    (st : ServiceState) (l : List TimeEntry)
    (hdry : cfg.dryRun = true) (hbs : bs ≠ 0) :
    (processTimeEntries cfg env bs st l).2.2 = [] ∧
    (processTimeEntries cfg env bs st l).2.1.stats.clientsCreated =
      st.stats.clientsCreated ∧
    (processTimeEntries cfg env bs st l).2.1.stats.projectsCreated =
      st.stats.projectsCreated ∧
    (processTimeEntries cfg env bs st l).2.1.stats.tasksCreated =
      st.stats.tasksCreated ∧
    (processTimeEntries cfg env bs st l).2.1.stats.timeEntriesCreated =
      st.stats.timeEntriesCreated ∧
    (processTimeEntries cfg env bs st l).2.1.targetClients = st.targetClients ∧
    (∀ st2 n, (getOrCreateClient cfg env st2 n).2.1 = st2) ∧
    (∀ st2 n cid, lookupA st2.targetProjects n = none →
      findInPages env.projectPages (fun p => p.name = n) = .ok none →
      (getOrCreateProject cfg env st2 n cid).2.1.targetProjects =
        insertA st2.targetProjects n { id := "dummy", name := n, clientID := cid }) ∧
    (∀ st2 pid n, lookupA st2.targetTasks (pid ++ "/" ++ n) = none →
      findInPages (env.taskPages pid) (fun t => t.name = n) = .ok none →
      (getOrCreateTask cfg env st2 pid n).2.1.targetTasks =
        insertA st2.targetTasks (pid ++ "/" ++ n)
          { id := "dummy", name := n, projectID := pid }) := by
  have heq := processTimeEntries_eq_processBatch cfg env bs hbs l.length l st le_rfl
  have hdb := processBatch_dry cfg env hdry l st
  refine ⟨?_, ?_, ?_, ?_, ?_, ?_, ?_, ?_, ?_⟩
  · rw [heq]; exact hdb.2.2.2.2.2
  · rw [heq]; exact hdb.1
  · rw [heq]; exact hdb.2.1
  · rw [heq]; exact hdb.2.2.1
  · rw [heq]; exact hdb.2.2.2.1
  · rw [heq]; exact hdb.2.2.2.2.1
  · intro st2 n; exact (getOrCreateClient_dry cfg env hdry st2 n).1
  · intro st2 n cid h1 h2
    unfold getOrCreateProject
    rw [h1, h2]
    simp [hdry]
  · intro st2 pid n h1 h2
    unfold getOrCreateTask
    rw [h1, h2]
    simp [hdry]

/-- Witness for C2 (amended) on a concrete dry run of one entry. -/
theorem claim_c2_witness :
    (processTimeEntries cfgDry envGood 50 st0 [entry1]).2.2 = [] ∧
    (processTimeEntries cfgDry envGood 50 st0 [entry1]).2.1.targetClients =
      st0.targetClients ∧
    (getOrCreateProject cfgDry envGood st0 "Acme" "c9").2.1.targetProjects =
      insertA st0.targetProjects "Acme"
        { id := "dummy", name := "Acme", clientID := "c9" } := by
  have h := claim_c2_amended cfgDry envGood 50 st0 [entry1] rfl (by decide)
  exact ⟨h.1, h.2.2.2.2.2.1, h.2.2.2.2.2.2.2.1 st0 "Acme" "c9" rfl rfl⟩

/-! ### Claim C1 -/

/-- C1: for a fetched list with exactly one unparsable-task-name entry among
otherwise processable entries (creates all succeed, client auto-creation
on), the run completes without aborting, `TimeEntriesProcessed` ends at
`N - 1`, and `Errors` holds exactly one message; the surrounding entries are
all processed. -/
theorem claim_c1_isolation (cfg : MigrationConfig) (env : RemoteEnv) (bs : Nat)
    (st0' : ServiceState) (pre post : List TimeEntry) (bad : TimeEntry)
    (hbs : bs ≠ 0)
    (hp0 : st0'.stats.timeEntriesProcessed = 0)
    (he0 : st0'.stats.errors = [])
    (hcc : cfg.createClients = true)
    (henv : envAllCreatesSucceed env)
    (hpre : ∀ e ∈ pre, goodEntry cfg env e = true)
    (hpost : ∀ e ∈ post, goodEntry cfg env e = true)
    (hbad : unparsableEntry cfg env bad = true) :
    (processTimeEntries cfg env bs st0' (pre ++ bad :: post)).1 = .ok () ∧
    (processTimeEntries cfg env bs st0'
        (pre ++ bad :: post)).2.1.stats.timeEntriesProcessed =
      pre.length + post.length ∧
    (processTimeEntries cfg env bs st0'
        (pre ++ bad :: post)).2.1.stats.errors.length = 1 ∧
    (pre ++ bad :: post).length = (pre.length + post.length) + 1 := by
  have heq := processTimeEntries_eq_processBatch cfg env bs hbs
    (pre ++ bad :: post).length (pre ++ bad :: post) st0' le_rfl
  rw [heq]
  have hA := processBatch_all_good cfg env pre hcc henv hpre st0'
  set stA := (processBatch cfg env st0' pre).2.1 with hstA
  have happ := processBatch_append cfg env st0' pre (bad :: post)
  obtain ⟨msg, hmsg⟩ := processTimeEntry_unparsable cfg env stA bad hbad
  have hcons : (processBatch cfg env stA (bad :: post)).2.1 =
      (processBatch cfg env
        (recordOutcome bad (.error msg) stA) post).2.1 := by
    simp only [processBatch]
    rw [hmsg]
  have hB := processBatch_all_good cfg env post hcc henv hpost
    (recordOutcome bad (.error msg) stA)
  have hrecStats : (recordOutcome bad (.error msg) stA).stats.timeEntriesProcessed =
      pre.length ∧
      (recordOutcome bad (.error msg) stA).stats.errors.length = 1 := by
    unfold recordOutcome
    constructor
    · simpa [hp0] using hA.1
    · simp [hA.2, he0]
  refine ⟨rfl, ?_, ?_, by simp [List.length_append]; omega⟩
  · rw [happ]
    dsimp only
    rw [hcons, hB.1, hrecStats.1]
  · rw [happ]
    dsimp only
    rw [hcons, hB.2, hrecStats.2]

/-- Witness for C1 on three concrete entries, the middle one unparsable. -/
theorem claim_c1_witness :
    (processTimeEntries cfgLive envGood 50 st0
        ([entry1] ++ entryBad :: [entry2])).1 = .ok () ∧
    (processTimeEntries cfgLive envGood 50 st0
        ([entry1] ++ entryBad :: [entry2])).2.1.stats.timeEntriesProcessed =
      [entry1].length + [entry2].length ∧
    (processTimeEntries cfgLive envGood 50 st0
        ([entry1] ++ entryBad :: [entry2])).2.1.stats.errors.length = 1 ∧
    ([entry1] ++ entryBad :: [entry2]).length =
      ([entry1].length + [entry2].length) + 1 := by
  refine claim_c1_isolation cfgLive envGood 50 st0 [entry1] [entry2] entryBad
    (by decide) rfl rfl rfl ?_ (by decide) (by decide) (by decide)
  refine ⟨fun n => ⟨{ id := "c1", name := n }, rfl⟩,
          fun n => ⟨{ id := "p1", name := n, clientID := "" }, rfl⟩,
          fun pid n => ⟨{ id := "k1", name := n, projectID := pid }, rfl⟩,
          fun _ _ _ => rfl, ?_, ?_⟩
  · intro pg hpg
    exact absurd hpg (List.not_mem_nil pg)
  · intro pid pg hpg
    exact absurd hpg (List.not_mem_nil pg)

/-! ### Claim C10 -/

/-- C10: an entry with an empty task ID fails entry-locally with the
"empty task ID" error before any remote call — the outcome is independent of
the remote environment, the state is unchanged and no effect is issued — and
the batch loop records the error in `stats.Errors` and continues with the
remaining entries. -/
theorem claim_c10_empty_task_id (cfg : MigrationConfig) (env env2 : RemoteEnv)
    (st : ServiceState) (e : TimeEntry) (rest : List TimeEntry)
    (h : e.taskID = "") :
    processTimeEntry cfg env st e =
      (.error "failed to get source task: empty task ID", st, []) ∧
    processTimeEntry cfg env st e = processTimeEntry cfg env2 st e ∧
    processBatch cfg env st (e :: rest) =
      processBatch cfg env
        { st with stats := { st.stats with errors := st.stats.errors ++
            ["Failed to process entry " ++ e.id ++ ": " ++
              "failed to get source task: empty task ID"] } } rest := by
  have hfail : ∀ env3 : RemoteEnv, processTimeEntry cfg env3 st e =
      (.error "failed to get source task: empty task ID", st, []) := by
    intro env3
    unfold processTimeEntry getSourceTask
    rw [h]
    simp
  refine ⟨hfail env, by rw [hfail env, hfail env2], ?_⟩
  simp only [processBatch]
  rw [hfail env]
  simp [recordOutcome]

/-- Witness for C10 on the concrete empty-task-ID entry. -/
theorem claim_c10_witness :
    processTimeEntry cfgLive envGood st0 entryNoTask =
      (.error "failed to get source task: empty task ID", st0, []) ∧
    processTimeEntry cfgLive envGood st0 entryNoTask =
      processTimeEntry cfgLive envCreateFails st0 entryNoTask ∧
    processBatch cfgLive envGood st0 (entryNoTask :: [entry1]) =
      processBatch cfgLive envGood
        { st0 with stats := { st0.stats with errors := st0.stats.errors ++
            ["Failed to process entry " ++ entryNoTask.id ++ ": " ++
              "failed to get source task: empty task ID"] } } [entry1] :=
  claim_c10_empty_task_id cfgLive envGood envCreateFails st0 entryNoTask [entry1] rfl

end CCWS
